import Mathlib

/-!
Verification development for the bellman-bignat rollup circuit and its key
and proof export pipeline. The Rust sources embedded here are
src/rollup.rs (witness builder RollupInputs::new / from_counts, the shape
configuration RollupParams, and the circuit Rollup::synthesize) and
src/bin/export.rs (parameter generation, JSON key export, public-input
packing). Pure functions become Lean functions; the stateful constraint
synthesis becomes an explicit trace- and count-accumulating computation in
an Except monad; machine big integers become Nat. External gadget modules
(hash, rsa_set, mp::bignat) that are consumed but not part of this core
are modelled from their specified contracts where noted.
-/

namespace BellmanBignat

/-- An RSA group, as in rsa_set::RsaGroup: a generator g and a modulus m. -/
structure RsaGroup where
  g : ℕ
  m : ℕ
deriving DecidableEq, Repr

/-- A hash domain descriptor, as in hash::HashDomain: an output bit length
and a count of forced trailing one bits. -/
structure HashDomain where
  n_bits : ℕ
  n_trailing_ones : ℕ
deriving DecidableEq, Repr

/-- The witness data of RollupInputs (rollup.rs lines 36-44): the initial
backend state is the explicit list of member domain elements held by the
NaiveRsaSetBackend, final_digest is a big integer, and the items to remove
and insert are tuples of field values (modelled as naturals). -/
structure RollupInputsW where
  initial_state : List ℕ
  final_digest : ℕ
  to_remove : List (List ℕ)
  to_insert : List (List ℕ)
deriving DecidableEq, Repr

/-- The hash domain constructed by the witness builder RollupInputs::new
(rollup.rs lines 119-122): n_bits is the n_bits_elem argument and
n_trailing_ones is 1. -/
def RollupInputs.hashDomain (n_bits_elem : ℕ) : HashDomain :=
  { n_bits := n_bits_elem, n_trailing_ones := 1 }

/-- One step of BigUint::modpow as used in the digest fold of
RollupInputs::new: raise the accumulator to the hash and reduce mod m. -/
def modpowStep (m acc h : ℕ) : ℕ := acc ^ h % m

/-- RollupInputs::new (rollup.rs lines 87-143), parametric in the external
native hash helper::hash_to_rsa_element (the hash module is outside this
core). Items are taken directly as tuples of field values, abstracting the
Fr::from_str parsing of the string arguments. The untouched, removed and
inserted items are hashed under the domain \x7bn_bits_elem, 1\x7d; the
final digest folds modpow over the untouched then inserted hashes starting
from g; the initial backend state holds the untouched then removed
hashes. -/
def RollupInputs.new (hashFn : List ℕ → HashDomain → ℕ)
    (untouched removed inserted : List (List ℕ))
    (n_bits_elem : ℕ) (group : RsaGroup) : RollupInputsW :=
  let d := RollupInputs.hashDomain n_bits_elem
  let untouched_hashes := untouched.map (fun xs => hashFn xs d)
  let removed_hashes := removed.map (fun xs => hashFn xs d)
  let inserted_hashes := inserted.map (fun xs => hashFn xs d)
  { initial_state := untouched_hashes ++ removed_hashes
  , final_digest := (untouched_hashes ++ inserted_hashes).foldl (modpowStep group.m) group.g
  , to_remove := removed
  , to_insert := inserted }

/-- The item tuple component generated by RollupInputs::from_counts for
indices i, j: the decimal string "1" followed by i in six digits and j in
three digits, i.e. the number 10^9 + i * 10^3 + j for in-range i and j. -/
def fromCountsItem (i j : ℕ) : ℕ := 1000000000 + i * 1000 + j

/-- RollupInputs::from_counts (rollup.rs lines 47-86): builds synthetic
untouched, removed and inserted item lists (untouched and removed use the
same generator, as do inserted) and delegates to new. -/
def RollupInputs.from_counts (hashFn : List ℕ → HashDomain → ℕ)
    (n_untouched n_removed n_inserted item_len : ℕ)
    (n_bits_elem : ℕ) (group : RsaGroup) : RollupInputsW :=
  let mkItems := fun (n : ℕ) =>
    (List.range n).map (fun i => (List.range item_len).map (fun j => fromCountsItem i j))
  RollupInputs.new hashFn (mkItems n_untouched) (mkItems n_removed) (mkItems n_inserted)
    n_bits_elem group

/-- A deterministic mixer of the item components, standing for the Poseidon
compression inside the hash-to-domain primitive. -/
def mixItem (xs : List ℕ) : ℕ := xs.foldl (fun a x => a * 1000003 + x + 1) 1

/-- Modelled from the spec: the hash-to-domain primitive (the hash module,
outside this core; spec 4.1) maps K field values and a \x7bbit length,
trailing-one count\x7d descriptor to a big integer strictly below
2^n_bits whose lowest n_trailing_ones bits are all set. The same single
implementation backs both the native helper and the in-circuit gadget. -/
def hash_to_rsa_element (xs : List ℕ) (d : HashDomain) : ℕ :=
  2 ^ d.n_trailing_ones * (mixItem xs % 2 ^ (d.n_bits - d.n_trailing_ones))
    + (2 ^ d.n_trailing_ones - 1)

/-- The shape configuration RollupParams (rollup.rs lines 146-157); the
opaque Poseidon hash parameters are not part of the shape data that the
claims depend on and are omitted. -/
structure RollupParams where
  group : RsaGroup
  limb_width : ℕ
  n_bits_base : ℕ
  n_bits_elem : ℕ
  n_bits_challenge : ℕ
  item_size : ℕ
  n_removes : ℕ
  n_inserts : ℕ
deriving DecidableEq, Repr

/-- The hash domain constructed inside Rollup::synthesize (rollup.rs lines
197-200): n_bits is params.n_bits_elem and n_trailing_ones is 1. -/
def Rollup.hashDomain (p : RollupParams) : HashDomain :=
  { n_bits := p.n_bits_elem, n_trailing_ones := 1 }

/-- The domain element the native witness builder computes for an item
(rollup.rs lines 123-131): the hash under domain \x7bn_bits_elem, 1\x7d. -/
def nativeDomainElement (n_bits_elem : ℕ) (xs : List ℕ) : ℕ :=
  hash_to_rsa_element xs (RollupInputs.hashDomain n_bits_elem)

/-- The domain element the in-circuit synthesis constrains for an item
(rollup.rs lines 202-239): the hash under domain \x7bparams.n_bits_elem,
1\x7d. -/
def circuitDomainElement (p : RollupParams) (xs : List ℕ) : ℕ :=
  hash_to_rsa_element xs (Rollup.hashDomain p)

/-- SynthesisError, restricted to the constructor the rollup core raises:
bellman's SynthesisError::AssignmentMissing (rollup.rs lines 22-34). -/
inductive SynthesisError where
  | assignmentMissing
deriving DecidableEq, Repr

/-- OptionExt::grab (rollup.rs lines 27-34): an absent Option becomes
SynthesisError::AssignmentMissing. -/
def grab {α : Type} : Option α → Except SynthesisError α
  | none => .error .assignmentMissing
  | some a => .ok a

/-- A symbolic accumulator-set value flowing through synthesis: the
initially allocated set, or the result of a remove or insert protocol
application on an earlier value. -/
inductive SetExpr where
  | init
  | removedFrom (s : SetExpr)
  | insertedInto (s : SetExpr)
deriving DecidableEq, Repr

/-- The observable synthesis operations of Rollup::synthesize, in the
order they are recorded. -/
inductive Event where
  | allocGroup
  | allocChallenge (v : ℕ)
  | allocSet
  | hashRemove (i : ℕ)
  | hashInsert (i : ℕ)
  | removeOp (s : SetExpr)
  | insertOp (s : SetExpr)
  | allocExpectedDigest
  | checkDigest
deriving DecidableEq, Repr

/-- Constraint-count interfaces of the external gadgets the circuit calls
(AllocatedRsaGroup::alloc_input, BigNat::alloc_from_nat, RsaSet::alloc,
AllocatedNum::alloc, hash_to_rsa_element, RsaSet::remove / insert,
BigNat::equal). Per their contracts each count is a function of the shape
arguments the source passes them, never of witness values. -/
structure Gadgets where
  groupCost : ℕ → ℕ → ℕ
  allocNatCost : ℕ → ℕ → ℕ
  setAllocCost : ℕ → ℕ → ℕ
  allocNumCost : ℕ
  hashCost : ℕ → ℕ → HashDomain → ℕ
  removeCost : ℕ → ℕ → ℕ → ℕ → ℕ
  insertCost : ℕ → ℕ → ℕ → ℕ → ℕ
  equalCost : ℕ → ℕ

/-- The CHALLENGE constant (rollup.rs line 20). -/
def challengeConstant : ℕ := 274481455456098291870407972073878126369

/-- The value closure of the challenge allocation in Rollup::synthesize
(rollup.rs lines 175-181): BigUint::from_str(CHALLENGE). It captures
neither the params nor the witness of the circuit instance. -/
def challengeValue (_p : RollupParams) (_inputs : Option RollupInputsW) : ℕ :=
  challengeConstant

/-- The witness accesses of the component allocation loop for item i of a
removal or insertion (rollup.rs lines 204-210 and 224-230): grab the
inputs, the item at index i, then each of the first item_size components;
the first absent access aborts with AssignmentMissing. -/
def grabComponents (inputs : Option RollupInputsW)
    (sel : RollupInputsW → List (List ℕ)) (i k : ℕ) :
    Except SynthesisError Unit :=
  match grab inputs with
  | .error e => .error e
  | .ok ins =>
    match grab (sel ins)[i]? with
    | .error e => .error e
    | .ok item => if k ≤ item.length then .ok () else .error .assignmentMissing

/-- The witness accesses performed for removal item i (skipped entirely
when the constraint system does not evaluate value closures). -/
def removeCheck (evalW : Bool) (inputs : Option RollupInputsW) (k i : ℕ) :
    Except SynthesisError Unit :=
  if evalW then grabComponents inputs (fun s => s.to_remove) i k else .ok ()

/-- The witness accesses performed for insertion item i (skipped entirely
when the constraint system does not evaluate value closures). -/
def insertCheck (evalW : Bool) (inputs : Option RollupInputsW) (k i : ℕ) :
    Except SynthesisError Unit :=
  if evalW then grabComponents inputs (fun s => s.to_insert) i k else .ok ()

/-- The constraints contributed by one hashed item: item_size component
allocations plus one hash-to-domain gadget call, whose shape arguments are
the limb width, the tuple length and the hash domain (rollup.rs lines
202-239). -/
def perItemCost (G : Gadgets) (p : RollupParams) : ℕ :=
  p.item_size * G.allocNumCost
    + G.hashCost p.limb_width p.item_size (Rollup.hashDomain p)

/-- The hashing loop of Rollup::synthesize over a list of item indices:
for each index run the witness accesses (when the constraint system
evaluates closures), then record the hash event and the per-item
constraint cost. The first error aborts the loop. -/
def hashItems (check : ℕ → Except SynthesisError Unit) (tag : ℕ → Event)
    (cost : ℕ) : List ℕ → Except SynthesisError (List Event × ℕ)
  | [] => .ok ([], 0)
  | i :: rest =>
    match check i with
    | .error e => .error e
    | .ok _ =>
      match hashItems check tag cost rest with
      | .error e => .error e
      | .ok (t, c) => .ok (tag i :: t, cost + c)

/-- RsaSet::remove as called by the circuit (rollup.rs line 242): returns
the reduced set together with its trace event. -/
def rsaSetRemove (s : SetExpr) : SetExpr × Event :=
  (SetExpr.removedFrom s, Event.removeOp s)

/-- RsaSet::insert as called by the circuit (rollup.rs lines 245-246):
returns the expanded set together with its trace event. -/
def rsaSetInsert (s : SetExpr) : SetExpr × Event :=
  (SetExpr.insertedInto s, Event.insertOp s)

/-- Rollup::synthesize (rollup.rs lines 164-259) as a trace- and
constraint-count-accumulating computation. evalW distinguishes constraint
systems that evaluate witness closures (test and proving assignments) from
shape-only synthesis for parameter generation, whose allocations do not
run the value closures. External gadget constraint counts are abstracted
by G, a family of functions of the shape arguments the source passes
them. The group and challenge closures (params and a constant) always
succeed; the set-init closure and the expected-digest closure grab the
witness; each item component allocation grabs its witness value. -/
def synthesize (G : Gadgets) (evalW : Bool) (p : RollupParams)
    (inputs : Option RollupInputsW) :
    Except SynthesisError (List Event × ℕ) :=
  match (if evalW then (grab inputs).map (fun _ => ()) else .ok ()) with
  | .error e => .error e
  | .ok _ =>
    match hashItems (removeCheck evalW inputs p.item_size)
        Event.hashRemove (perItemCost G p) (List.range p.n_removes) with
    | .error e => .error e
    | .ok (tRem, cRem) =>
      match hashItems (insertCheck evalW inputs p.item_size)
          Event.hashInsert (perItemCost G p) (List.range p.n_inserts) with
      | .error e => .error e
      | .ok (tIns, cIns) =>
        let reduced := rsaSetRemove SetExpr.init
        let expanded := rsaSetInsert reduced.1
        match (if evalW then (grab inputs).map (fun _ => ()) else .ok ()) with
        | .error e => .error e
        | .ok _ =>
          .ok ([Event.allocGroup, Event.allocChallenge (challengeValue p inputs),
                Event.allocSet]
                ++ tRem ++ tIns
                ++ [reduced.2, expanded.2, Event.allocExpectedDigest, Event.checkDigest],
              G.groupCost p.limb_width (p.n_bits_base / p.limb_width)
                + G.allocNatCost p.limb_width (p.n_bits_challenge / p.limb_width)
                + G.setAllocCost p.limb_width (p.n_bits_base / p.limb_width)
                + cRem + cIns
                + G.removeCost p.n_removes p.limb_width (p.n_bits_base / p.limb_width)
                    (p.n_bits_challenge / p.limb_width)
                + G.insertCost p.n_inserts p.limb_width (p.n_bits_base / p.limb_width)
                    (p.n_bits_challenge / p.limb_width)
                + G.allocNatCost p.limb_width (p.n_bits_base / p.limb_width)
                + G.equalCost (p.n_bits_base / p.limb_width))

/-- The synthesis trace determined by the shape parameters alone (the
challenge value recorded is the fixed constant, which every instance
allocates). -/
def shapeTrace (p : RollupParams) : List Event :=
  [Event.allocGroup, Event.allocChallenge challengeConstant, Event.allocSet]
    ++ (List.range p.n_removes).map Event.hashRemove
    ++ (List.range p.n_inserts).map Event.hashInsert
    ++ [Event.removeOp SetExpr.init,
        Event.insertOp (SetExpr.removedFrom SetExpr.init),
        Event.allocExpectedDigest, Event.checkDigest]

/-- The constraint count determined by the shape parameters alone. -/
def shapeCount (G : Gadgets) (p : RollupParams) : ℕ :=
  G.groupCost p.limb_width (p.n_bits_base / p.limb_width)
    + G.allocNatCost p.limb_width (p.n_bits_challenge / p.limb_width)
    + G.setAllocCost p.limb_width (p.n_bits_base / p.limb_width)
    + perItemCost G p * p.n_removes + perItemCost G p * p.n_inserts
    + G.removeCost p.n_removes p.limb_width (p.n_bits_base / p.limb_width)
        (p.n_bits_challenge / p.limb_width)
    + G.insertCost p.n_inserts p.limb_width (p.n_bits_base / p.limb_width)
        (p.n_bits_challenge / p.limb_width)
    + G.allocNatCost p.limb_width (p.n_bits_base / p.limb_width)
    + G.equalCost (p.n_bits_base / p.limb_width)

/-- Presence of the witness values accessed for item index i: the item
exists and has at least k components. -/
def itemCheck (items : List (List ℕ)) (i k : ℕ) : Bool :=
  match items[i]? with
  | some it => decide (k ≤ it.length)
  | none => false

/-- Completeness of one item list against the access pattern: every index
below n maps to a present item with at least k components. -/
def itemsComplete (items : List (List ℕ)) (n k : ℕ) : Bool :=
  (List.range n).all (fun i => itemCheck items i k)

/-- Completeness of a witness for the access pattern of proving-mode
synthesis under shape p. -/
def witnessComplete (p : RollupParams) : Option RollupInputsW → Bool
  | none => false
  | some ins =>
    itemsComplete ins.to_remove p.n_removes p.item_size
      && itemsComplete ins.to_insert p.n_inserts p.item_size

/-- A trivial gadget cost model in which every external gadget contributes
zero constraints; used to instantiate shape results at concrete inputs. -/
def zeroGadgets : Gadgets :=
  { groupCost := fun _ _ => 0
  , allocNatCost := fun _ _ => 0
  , setAllocCost := fun _ _ => 0
  , allocNumCost := 0
  , hashCost := fun _ _ _ => 0
  , removeCost := fun _ _ _ _ => 0
  , insertCost := fun _ _ _ _ => 0
  , equalCost := fun _ => 0 }

/-- A small concrete shape: one remove and one insert of two-component
items over a toy group. -/
def pTest : RollupParams :=
  { group := { g := 2, m := 35 }, limb_width := 32, n_bits_base := 64
  , n_bits_elem := 16, n_bits_challenge := 32, item_size := 2
  , n_removes := 1, n_inserts := 1 }

/-- A second, different concrete shape: two removes and two inserts. -/
def pTest2 : RollupParams :=
  { group := { g := 2, m := 35 }, limb_width := 32, n_bits_base := 64
  , n_bits_elem := 16, n_bits_challenge := 32, item_size := 2
  , n_removes := 2, n_inserts := 2 }

/-- A complete witness for the shape pTest. -/
def insTest : RollupInputsW :=
  { initial_state := [], final_digest := 0
  , to_remove := [[1, 2]], to_insert := [[3, 4]] }

/-- The synthesis trace of the shape pTest, written out. -/
def tTest : List Event :=
  [Event.allocGroup, Event.allocChallenge 274481455456098291870407972073878126369,
   Event.allocSet, Event.hashRemove 0, Event.hashInsert 0,
   Event.removeOp SetExpr.init, Event.insertOp (SetExpr.removedFrom SetExpr.init),
   Event.allocExpectedDigest, Event.checkDigest]

/-- The synthesis trace of the shape pTest2, written out. -/
def tTest2 : List Event :=
  [Event.allocGroup, Event.allocChallenge 274481455456098291870407972073878126369,
   Event.allocSet, Event.hashRemove 0, Event.hashRemove 1,
   Event.hashInsert 0, Event.hashInsert 1,
   Event.removeOp SetExpr.init, Event.insertOp (SetExpr.removedFrom SetExpr.init),
   Event.allocExpectedDigest, Event.checkDigest]

/-- The RSA-2048 modulus constant (export.rs lines 61-62). -/
def RSA2048 : ℕ := 25195908475657893494027183240048398571429282126204032027777137836043662020707595556264018525880784406918290641249515082189298559149176184502808489120072844992687392807287776735971418347270261896375014971824691165077613379859095700097330459748808428401797429100642458691817195118746121515172654632282216869987549182422433637259085141865462043576798423387184774447920739934236584823824281198163815010674810451660377306056201619676256133844143603833904414952634432190114657544454178424020924616515723350778707749817125772467962926386356373289912154831438167899885040445364023527381951378636564391212010397122822120720357

/-- generate_bench_params (export.rs lines 66-81): the shape the export
pipeline uses for parameter generation, with n_swaps = 5 removes and
inserts, limb width 32, 2048-bit base and element widths, a 128-bit
challenge and item size 5, over the RSA-2048 group with generator 2. -/
def generate_bench_params : RollupParams :=
  { group := { g := 2, m := RSA2048 }, limb_width := 32, n_bits_base := 2048
  , n_bits_elem := 2048, n_bits_challenge := 128, item_size := 5
  , n_removes := 5, n_inserts := 5 }

/-- Modelled from the spec: SetBenchInputs::from_counts (set::rsa, a
module of this repository not under src/) is the build_witness operation
of spec 4.4; it produces a witness with exactly the requested numbers of
removed and inserted item tuples of the given item length, mirroring
RollupInputs::from_counts of src/rollup.rs. -/
def setBenchInputsFromCounts (n_untouched n_removed n_inserted item_len n_bits_elem : ℕ)
    (group : RsaGroup) : RollupInputsW :=
  RollupInputs.from_counts hash_to_rsa_element n_untouched n_removed n_inserted
    item_len n_bits_elem group

/-- The witness construct_circuit builds (export.rs lines 227-247): from
SetBenchInputs::from_counts(0, n_swaps, n_swaps, ELEMENT_SIZE, ...) with
n_swaps = 1 there, over the RSA-2048 group. -/
def construct_circuit_inputs : RollupInputsW :=
  setBenchInputsFromCounts 0 1 1 5 2048 { g := 2, m := RSA2048 }

/-- Modelled from the spec: mp::bignat::nat_to_limbs (a module of this
repository not under src/) is the deterministic big-integer-to-limb
packing of spec 4.4: k limbs of w bits each in a fixed digit order,
least-significant limb first. -/
def nat_to_limbs (w : ℕ) : ℕ → ℕ → List ℕ
  | 0, _ => []
  | k + 1, x => x % 2 ^ w :: nat_to_limbs w k (x / 2 ^ w)

/-- Reassembling a little-endian limb sequence into the packed integer. -/
def limbsToNat (w : ℕ) : List ℕ → ℕ
  | [] => 0
  | d :: ds => d + 2 ^ w * limbsToNat w ds

/-- main (export.rs lines 283-290): the public-input vector packs, in this
order, the 64 32-bit limbs of the group generator, of the group modulus,
of the initial set digest, and of the final set digest. -/
def packPublicInputs (g m initialDigest finalDigest : ℕ) : List ℕ :=
  nat_to_limbs 32 64 g ++ nat_to_limbs 32 64 m
    ++ nat_to_limbs 32 64 initialDigest ++ nat_to_limbs 32 64 finalDigest

/-- The packing described by the spec sentence for pack_public_inputs:
the limbs of the group generator, the group modulus and the final digest
only. Stated from the words of the spec, for comparison against the
packing the source performs. -/
def packPublicInputsSpec (g m finalDigest : ℕ) : List ℕ :=
  nat_to_limbs 32 64 g ++ nat_to_limbs 32 64 m ++ nat_to_limbs 32 64 finalDigest

/-- A filesystem modelled as an association list from paths to contents;
an earlier entry for a path shadows later ones. -/
abbrev FS := List (String × String)

/-- Lookup of a path in the filesystem. -/
def fsGet (fs : FS) (path : String) : Option String :=
  match fs with
  | [] => none
  | e :: rest => if e.1 = path then some e.2 else fsGet rest path

/-- OpenOptions create_new(true) open followed by a full write of the
serialized key (export.rs lines 210-214 and 216-220): fails if the path
already exists, never touching the existing file, else creates the file
with the given contents. -/
def createNewWrite (fs : FS) (path content : String) : Except Unit FS :=
  match fsGet fs path with
  | some _ => .error ()
  | none => .ok ((path, content) :: fs)

/-- generate_keys (export.rs lines 95-225), restricted to its filesystem
effects: create-new the proving key file, then create-new the verifying
key file; a failed unwrap aborts, leaving the filesystem as modified so
far and reporting failure. -/
def generate_keys (fs : FS) (pkPath vkPath pkJson vkJson : String) : FS × Bool :=
  match createNewWrite fs pkPath pkJson with
  | .error _ => (fs, false)
  | .ok fs1 =>
    match createNewWrite fs1 vkPath vkJson with
    | .error _ => (fs1, false)
    | .ok fs2 => (fs2, true)

/-- An affine G1 point as serialized by the export: coordinates as big
integers plus the infinity flag bellman keeps alongside them (is_zero). -/
structure G1Affine where
  x : ℕ
  y : ℕ
  infinity : Bool
deriving DecidableEq, Repr

/-- An element of the quadratic extension field, as a coordinate pair. -/
structure Fq2 where
  c0 : ℕ
  c1 : ℕ
deriving DecidableEq, Repr

/-- An affine G2 point as serialized by the export. -/
structure G2Affine where
  x : Fq2
  y : Fq2
  infinity : Bool
deriving DecidableEq, Repr

/-- repr_to_big (export.rs lines 109-111): print the coordinate in its hex
representation and re-parse into a decimal string; on values this is the
decimal rendering of the coordinate. -/
def repr_to_big (n : ℕ) : String := Nat.repr n

/-- p1_to_vec (export.rs lines 113-126): the triple [x, y, z] with z "0"
when the point is the point at infinity (is_zero) and "1" otherwise. -/
def p1_to_vec (p : G1Affine) : List String :=
  [repr_to_big p.x, repr_to_big p.y, if p.infinity then "0" else "1"]

/-- p2_to_vec (export.rs lines 128-149): [[x.c0, x.c1], [y.c0, y.c1], z]
with z ["0", "0"] when the point is at infinity and ["1", "0"]
otherwise. -/
def p2_to_vec (p : G2Affine) : List (List String) :=
  [[repr_to_big p.x.c0, repr_to_big p.x.c1],
   [repr_to_big p.y.c0, repr_to_big p.y.c1],
   if p.infinity then ["0", "0"] else ["1", "0"]]

end BellmanBignat

namespace BellmanBignat

/-- Folding modpow steps over a list starting from a reduced accumulator
computes the power of the list product, reduced mod m. -/
theorem foldl_modpowStep (m : ℕ) (hs : List ℕ) (a : ℕ) :
    hs.foldl (modpowStep m) (a % m) = a ^ hs.prod % m := by
  induction hs generalizing a with
  | nil => simp [pow_one]
  | cons h t ih =>
    have hstep : modpowStep m (a % m) h = a ^ h % m := by
      simp [modpowStep, Nat.pow_mod]
    calc ((h :: t).foldl (modpowStep m) (a % m))
        = t.foldl (modpowStep m) (a ^ h % m) := by simp [List.foldl, hstep]
      _ = (a ^ h) ^ t.prod % m := ih (a ^ h)
      _ = a ^ (h :: t).prod % m := by rw [← pow_mul, List.prod_cons]

/-- C1: a RollupInputs built by RollupInputs::new over group \x7bg, m\x7d
(with g a reduced residue, g < m) has final_digest equal to g raised to
the product of the domain hashes of the untouched and inserted items,
reduced mod m, and its initial backend state holds exactly the domain
hashes of the untouched and removed items. -/
theorem rollupInputs_new_digest_and_state
    (hashFn : List ℕ → HashDomain → ℕ)
    (untouched removed inserted : List (List ℕ))
    (n_bits_elem : ℕ) (group : RsaGroup) (hg : group.g < group.m) :
    (RollupInputs.new hashFn untouched removed inserted n_bits_elem group).final_digest
      = group.g ^
          (((untouched ++ inserted).map
            (fun xs => hashFn xs (RollupInputs.hashDomain n_bits_elem))).prod)
        % group.m
    ∧ (RollupInputs.new hashFn untouched removed inserted n_bits_elem group).initial_state
      = (untouched ++ removed).map
          (fun xs => hashFn xs (RollupInputs.hashDomain n_bits_elem)) := by
  constructor
  · have hgm : group.g % group.m = group.g := Nat.mod_eq_of_lt hg
    have h := foldl_modpowStep group.m
      ((untouched ++ inserted).map
        (fun xs => hashFn xs (RollupInputs.hashDomain n_bits_elem))) group.g
    rw [hgm] at h
    simpa [RollupInputs.new] using h
  · simp [RollupInputs.new]

/-- Witness for C1 at a concrete instance: hash is tuple sum plus bit
length, one untouched, one removed, one inserted item, group 2 mod 35. -/
theorem rollupInputs_new_digest_and_state_witness :
    (2 : ℕ) < 35
    ∧ ((RollupInputs.new (fun xs d => xs.sum + d.n_bits) [[1]] [[2]] [[3]] 4
          { g := 2, m := 35 }).final_digest
        = 2 ^ ((([[1], [3]] : List (List ℕ)).map
            (fun xs => (fun xs d => xs.sum + d.n_bits) xs
              (RollupInputs.hashDomain 4))).prod) % 35
      ∧ (RollupInputs.new (fun xs d => xs.sum + d.n_bits) [[1]] [[2]] [[3]] 4
          { g := 2, m := 35 }).initial_state
        = ([[1], [2]] : List (List ℕ)).map
            (fun xs => (fun xs d => xs.sum + d.n_bits) xs
              (RollupInputs.hashDomain 4)) ) :=
  ⟨by decide,
   rollupInputs_new_digest_and_state (fun xs d => xs.sum + d.n_bits)
     [[1]] [[2]] [[3]] 4 { g := 2, m := 35 } (by decide)⟩

/-- The hash output is strictly below 2^n_bits whenever the trailing-one
count is at most the bit length. -/
theorem hash_to_rsa_element_lt (xs : List ℕ) (d : HashDomain)
    (h : d.n_trailing_ones ≤ d.n_bits) :
    hash_to_rsa_element xs d < 2 ^ d.n_bits := by
  have hA : 0 < 2 ^ d.n_trailing_ones := pow_pos (by norm_num) _
  have hr : mixItem xs % 2 ^ (d.n_bits - d.n_trailing_ones)
      < 2 ^ (d.n_bits - d.n_trailing_ones) :=
    Nat.mod_lt _ (pow_pos (by norm_num) _)
  have hAB : 2 ^ d.n_trailing_ones * 2 ^ (d.n_bits - d.n_trailing_ones)
      = 2 ^ d.n_bits := by
    rw [← pow_add]
    congr 1
    omega
  have h3 : 2 ^ d.n_trailing_ones * (mixItem xs % 2 ^ (d.n_bits - d.n_trailing_ones))
        + 2 ^ d.n_trailing_ones
      ≤ 2 ^ d.n_trailing_ones * 2 ^ (d.n_bits - d.n_trailing_ones) := by
    have := Nat.mul_le_mul_left (2 ^ d.n_trailing_ones) (Nat.succ_le_of_lt hr)
    simpa [Nat.mul_succ] using this
  unfold hash_to_rsa_element
  omega

/-- The hash output has its lowest n_trailing_ones bits all set. -/
theorem hash_to_rsa_element_trailing (xs : List ℕ) (d : HashDomain) :
    hash_to_rsa_element xs d % 2 ^ d.n_trailing_ones
      = 2 ^ d.n_trailing_ones - 1 := by
  have hA : 0 < 2 ^ d.n_trailing_ones := pow_pos (by norm_num) _
  unfold hash_to_rsa_element
  rw [add_comm, Nat.add_mul_mod_self_left]
  exact Nat.mod_eq_of_lt (by omega)

/-- C4: when the witness builder is invoked with n_bits_elem equal to
params.n_bits_elem (and the bit length is positive), the native and
in-circuit hash domains are the same descriptor with n_bits = n_bits_elem
and n_trailing_ones = 1, so every item's natively computed domain element
equals the in-circuit one, and each is strictly below 2^n_bits_elem with
its lowest bit set. -/
theorem native_circuit_domain_agree (n_bits_elem : ℕ) (p : RollupParams)
    (hn : n_bits_elem = p.n_bits_elem) (hpos : 1 ≤ p.n_bits_elem) :
    RollupInputs.hashDomain n_bits_elem = Rollup.hashDomain p
    ∧ RollupInputs.hashDomain n_bits_elem
        = { n_bits := n_bits_elem, n_trailing_ones := 1 }
    ∧ ∀ xs : List ℕ,
        nativeDomainElement n_bits_elem xs = circuitDomainElement p xs
        ∧ circuitDomainElement p xs < 2 ^ p.n_bits_elem
        ∧ circuitDomainElement p xs % 2 = 1 := by
  subst hn
  refine ⟨rfl, rfl, fun xs => ⟨rfl, ?_, ?_⟩⟩
  · exact hash_to_rsa_element_lt xs (Rollup.hashDomain p) (by simpa [Rollup.hashDomain])
  · have h := hash_to_rsa_element_trailing xs (Rollup.hashDomain p)
    simpa [Rollup.hashDomain] using h

/-- Witness for C4 at the test configuration: n_bits_elem 128, matching
params, on the item tuple (0, 1, 2, 3, 4). -/
theorem native_circuit_domain_agree_witness :
    (128 : ℕ) = (128 : ℕ)
    ∧ (1 : ℕ) ≤ 128
    ∧ (nativeDomainElement 128 [0, 1, 2, 3, 4]
        = circuitDomainElement
            { group := { g := 2, m := 35 }, limb_width := 32, n_bits_base := 512
            , n_bits_elem := 128, n_bits_challenge := 128, item_size := 5
            , n_removes := 1, n_inserts := 1 } [0, 1, 2, 3, 4]
      ∧ circuitDomainElement
            { group := { g := 2, m := 35 }, limb_width := 32, n_bits_base := 512
            , n_bits_elem := 128, n_bits_challenge := 128, item_size := 5
            , n_removes := 1, n_inserts := 1 } [0, 1, 2, 3, 4] < 2 ^ 128
      ∧ circuitDomainElement
            { group := { g := 2, m := 35 }, limb_width := 32, n_bits_base := 512
            , n_bits_elem := 128, n_bits_challenge := 128, item_size := 5
            , n_removes := 1, n_inserts := 1 } [0, 1, 2, 3, 4] % 2 = 1) :=
  ⟨rfl, by norm_num,
   (native_circuit_domain_agree 128
      { group := { g := 2, m := 35 }, limb_width := 32, n_bits_base := 512
      , n_bits_elem := 128, n_bits_challenge := 128, item_size := 5
      , n_removes := 1, n_inserts := 1 } rfl (by norm_num)).2.2 [0, 1, 2, 3, 4]⟩

/-- A successful hashItems run yields exactly the tags of the index list
and the per-item cost times the number of items. -/
theorem hashItems_ok_inv (check : ℕ → Except SynthesisError Unit)
    (tag : ℕ → Event) (cost : ℕ) (l : List ℕ) (t : List Event) (c : ℕ)
    (h : hashItems check tag cost l = .ok (t, c)) :
    t = l.map tag ∧ c = cost * l.length := by
  induction l generalizing t c with
  | nil =>
    simp only [hashItems] at h
    obtain ⟨h1, h2⟩ := Prod.mk.injEq .. ▸ Except.ok.inj h
    exact ⟨h1.symm, by simp [h2.symm]⟩
  | cons i rest ih =>
    simp only [hashItems] at h
    cases hc : check i with
    | error e => rw [hc] at h; simp at h
    | ok u =>
      rw [hc] at h
      cases hr : hashItems check tag cost rest with
      | error e => rw [hr] at h; simp at h
      | ok pr =>
        obtain ⟨t0, c0⟩ := pr
        rw [hr] at h
        obtain ⟨h1, h2⟩ := Prod.mk.injEq .. ▸ Except.ok.inj h
        obtain ⟨ih1, ih2⟩ := ih t0 c0 hr
        subst h1 h2
        constructor
        · simp [ih1]
        · rw [ih2, List.length_cons, Nat.mul_succ, Nat.add_comm]

/-- When every witness access in the loop succeeds, hashItems returns the
full tag list and the accumulated per-item cost. -/
theorem hashItems_all_ok (check : ℕ → Except SynthesisError Unit)
    (tag : ℕ → Event) (cost : ℕ) (l : List ℕ)
    (h : ∀ i ∈ l, check i = .ok ()) :
    hashItems check tag cost l = .ok (l.map tag, cost * l.length) := by
  induction l with
  | nil => simp [hashItems]
  | cons i rest ih =>
    have hi : check i = .ok () := h i (List.mem_cons_self i rest)
    have hrest := ih (fun j hj => h j (List.mem_cons_of_mem i hj))
    have harith : cost + cost * rest.length = cost * (rest.length + 1) := by ring
    simp [hashItems, hi, hrest, harith]

/-- When some witness access in the loop is absent (and every access either
succeeds or reports AssignmentMissing), hashItems aborts with
AssignmentMissing. -/
theorem hashItems_missing (check : ℕ → Except SynthesisError Unit)
    (tag : ℕ → Event) (cost : ℕ) (l : List ℕ)
    (hbin : ∀ i, check i = .ok () ∨ check i = .error .assignmentMissing)
    (hfail : ¬ ∀ i ∈ l, check i = .ok ()) :
    hashItems check tag cost l = .error .assignmentMissing := by
  induction l with
  | nil => exact absurd (by simp) hfail
  | cons i rest ih =>
    rcases hbin i with hi | hi
    · have hrest : ¬ ∀ j ∈ rest, check j = .ok () := by
        intro hall
        refine hfail ?_
        intro j hj
        rcases List.mem_cons.mp hj with rfl | hj2
        · exact hi
        · exact hall j hj2
      simp [hashItems, hi, ih hrest]
    · simp [hashItems, hi]

/-- The witness accesses for one item succeed exactly when the inputs are
present and the selected item exists with enough components. -/
theorem grabComponents_ok_iff (inputs : Option RollupInputsW)
    (sel : RollupInputsW → List (List ℕ)) (i k : ℕ) :
    grabComponents inputs sel i k = .ok ()
      ↔ ∃ ins, inputs = some ins ∧ itemCheck (sel ins) i k = true := by
  cases inputs with
  | none => simp [grabComponents, grab]
  | some ins =>
    simp only [grabComponents, grab]
    cases hg : (sel ins)[i]? with
    | none => simp [itemCheck, hg]
    | some it =>
      by_cases hk : k ≤ it.length
      · simp [itemCheck, hg, hk]
      · simp [itemCheck, hg, hk]

/-- Every single-item witness access either succeeds or reports
AssignmentMissing. -/
theorem grabComponents_binary (inputs : Option RollupInputsW)
    (sel : RollupInputsW → List (List ℕ)) (i k : ℕ) :
    grabComponents inputs sel i k = .ok ()
      ∨ grabComponents inputs sel i k = .error .assignmentMissing := by
  cases inputs with
  | none => right; simp [grabComponents, grab]
  | some ins =>
    cases hg : (sel ins)[i]? with
    | none => right; simp [grabComponents, grab, hg]
    | some it =>
      by_cases hk : k ≤ it.length
      · left; simp [grabComponents, grab, hg, hk]
      · right; simp [grabComponents, grab, hg, hk]

/-- removeCheck in an evaluating constraint system is exactly the item
witness access. -/
theorem removeCheck_eval (inputs : Option RollupInputsW) (k i : ℕ) :
    removeCheck true inputs k i = grabComponents inputs (fun s => s.to_remove) i k := rfl

/-- insertCheck in an evaluating constraint system is exactly the item
witness access. -/
theorem insertCheck_eval (inputs : Option RollupInputsW) (k i : ℕ) :
    insertCheck true inputs k i = grabComponents inputs (fun s => s.to_insert) i k := rfl

/-- itemsComplete is the conjunction of the per-index checks. -/
theorem itemsComplete_iff (items : List (List ℕ)) (n k : ℕ) :
    itemsComplete items n k = true
      ↔ ∀ i ∈ List.range n, itemCheck items i k = true := by
  simp [itemsComplete, List.all_eq_true]

/-- Shape-only synthesis (the constraint system of parameter generation,
which never evaluates value closures) succeeds on an absent witness and
produces the shape trace and count. -/
theorem synthesize_shape_only (G : Gadgets) (p : RollupParams) :
    synthesize G false p none = .ok (shapeTrace p, shapeCount G p) := by
  have hrem := hashItems_all_ok (removeCheck false none p.item_size) Event.hashRemove
      (perItemCost G p) (List.range p.n_removes) (fun i _ => by simp [removeCheck])
  have hins := hashItems_all_ok (insertCheck false none p.item_size) Event.hashInsert
      (perItemCost G p) (List.range p.n_inserts) (fun i _ => by simp [insertCheck])
  simp [synthesize, hrem, hins, shapeTrace, shapeCount, challengeValue,
    rsaSetRemove, rsaSetInsert, List.length_range, Nat.mul_comm]

/-- Every successful synthesis produces exactly the shape trace and the
shape count, regardless of the mode and the witness carried. -/
theorem synthesize_ok_inv (G : Gadgets) (evalW : Bool) (p : RollupParams)
    (inputs : Option RollupInputsW) (t : List Event) (c : ℕ)
    (h : synthesize G evalW p inputs = .ok (t, c)) :
    t = shapeTrace p ∧ c = shapeCount G p := by
  simp only [synthesize] at h
  cases h0 : (if evalW then (grab inputs).map (fun _ => ()) else .ok ()) with
  | error e => rw [h0] at h; simp at h
  | ok u =>
    rw [h0] at h
    cases hr : hashItems (removeCheck evalW inputs p.item_size) Event.hashRemove
        (perItemCost G p) (List.range p.n_removes) with
    | error e => rw [hr] at h; simp at h
    | ok prR =>
      obtain ⟨tRem, cRem⟩ := prR
      rw [hr] at h
      cases hi : hashItems (insertCheck evalW inputs p.item_size) Event.hashInsert
          (perItemCost G p) (List.range p.n_inserts) with
      | error e => rw [hi] at h; simp at h
      | ok prI =>
        obtain ⟨tIns, cIns⟩ := prI
        rw [hi] at h
        simp only [rsaSetRemove, rsaSetInsert] at h
        obtain ⟨h1, h2⟩ := Prod.mk.injEq .. ▸ Except.ok.inj h
        obtain ⟨hR1, hR2⟩ := hashItems_ok_inv _ _ _ _ _ _ hr
        obtain ⟨hI1, hI2⟩ := hashItems_ok_inv _ _ _ _ _ _ hi
        constructor
        · rw [← h1, hR1, hI1]
          simp [shapeTrace, challengeValue]
        · rw [← h2, hR2, hI2]
          simp [shapeCount, List.length_range, perItemCost, Nat.mul_comm]

/-- Proving-mode synthesis with no witness at all aborts at the first
witness access (the set-init closure) with AssignmentMissing. -/
theorem synthesize_eval_none (G : Gadgets) (p : RollupParams) :
    synthesize G true p none = .error .assignmentMissing := by
  simp [synthesize, grab, Except.map]

/-- Proving-mode synthesis with an incomplete witness aborts with
AssignmentMissing. -/
theorem synthesize_incomplete (G : Gadgets) (p : RollupParams)
    (inputs : Option RollupInputsW)
    (h : witnessComplete p inputs = false) :
    synthesize G true p inputs = .error .assignmentMissing := by
  cases inputs with
  | none => exact synthesize_eval_none G p
  | some ins =>
    simp only [witnessComplete] at h
    have hbinR : ∀ i, removeCheck true (some ins) p.item_size i = .ok ()
        ∨ removeCheck true (some ins) p.item_size i = .error .assignmentMissing := by
      intro i
      rw [removeCheck_eval]
      exact grabComponents_binary _ _ _ _
    have hbinI : ∀ i, insertCheck true (some ins) p.item_size i = .ok ()
        ∨ insertCheck true (some ins) p.item_size i = .error .assignmentMissing := by
      intro i
      rw [insertCheck_eval]
      exact grabComponents_binary _ _ _ _
    cases hrem : itemsComplete ins.to_remove p.n_removes p.item_size with
    | false =>
      have hfail : ¬ ∀ i ∈ List.range p.n_removes,
          removeCheck true (some ins) p.item_size i = .ok () := by
        intro hall
        have hcomp : itemsComplete ins.to_remove p.n_removes p.item_size = true := by
          rw [itemsComplete_iff]
          intro i hi
          have hok := hall i hi
          rw [removeCheck_eval] at hok
          rcases (grabComponents_ok_iff (some ins) (fun s => s.to_remove) i
            p.item_size).mp hok with ⟨ins2, he, hc⟩
          cases Option.some.inj he
          exact hc
        rw [hcomp] at hrem
        cases hrem
      have herr := hashItems_missing (removeCheck true (some ins) p.item_size)
        Event.hashRemove (perItemCost G p) (List.range p.n_removes) hbinR hfail
      simp [synthesize, grab, Except.map, herr]
    | true =>
      have hins : itemsComplete ins.to_insert p.n_inserts p.item_size = false := by
        rw [hrem] at h
        simpa using h
      have hremOK := hashItems_all_ok (removeCheck true (some ins) p.item_size)
        Event.hashRemove (perItemCost G p) (List.range p.n_removes)
        (by
          intro i hi
          rw [removeCheck_eval]
          refine (grabComponents_ok_iff (some ins) (fun s => s.to_remove) i
            p.item_size).mpr ⟨ins, rfl, ?_⟩
          exact (itemsComplete_iff ins.to_remove p.n_removes p.item_size).mp hrem i hi)
      have hfailI : ¬ ∀ i ∈ List.range p.n_inserts,
          insertCheck true (some ins) p.item_size i = .ok () := by
        intro hall
        have hcomp : itemsComplete ins.to_insert p.n_inserts p.item_size = true := by
          rw [itemsComplete_iff]
          intro i hi
          have hok := hall i hi
          rw [insertCheck_eval] at hok
          rcases (grabComponents_ok_iff (some ins) (fun s => s.to_insert) i
            p.item_size).mp hok with ⟨ins2, he, hc⟩
          cases Option.some.inj he
          exact hc
        rw [hcomp] at hins
        cases hins
      have herrI := hashItems_missing (insertCheck true (some ins) p.item_size)
        Event.hashInsert (perItemCost G p) (List.range p.n_inserts) hbinI hfailI
      simp [synthesize, grab, Except.map, hremOK, herrI]

/-- C3: for a fixed RollupParams, every successful synthesis, in any mode
and with any witness, produces the same trace and the same constraint
count, both functions of the shape alone; and the witness-absent
shape-only synthesis used for parameter generation succeeds with exactly
that trace and count. -/
theorem rollup_shape_determinism (G : Gadgets) (p : RollupParams) :
    synthesize G false p none = .ok (shapeTrace p, shapeCount G p)
    ∧ ∀ (evalW : Bool) (inputs : Option RollupInputsW) (t : List Event) (c : ℕ),
        synthesize G evalW p inputs = .ok (t, c)
        → t = shapeTrace p ∧ c = shapeCount G p :=
  ⟨synthesize_shape_only G p,
   fun evalW inputs t c h => synthesize_ok_inv G evalW p inputs t c h⟩

/-- Witness for C3: a proving-mode run with a complete witness over the
small shape pTest yields the very trace and count of the shape-only run. -/
theorem rollup_shape_determinism_witness :
    tTest = shapeTrace pTest ∧ 0 = shapeCount zeroGadgets pTest :=
  (rollup_shape_determinism zeroGadgets pTest).2 true (some insTest) tTest 0 (by rfl)

/-- C7: every successful run of Rollup::synthesize performs, in order: the
group and challenge allocations, the initial-set allocation from the
witness backend, the hashing of each to-remove and then each to-insert
item, the remove protocol on the initial set, the insert protocol on the
reduced set returned by remove (not on the original set), and the
equality assertion of the insert result digest against the allocated
expected final digest. -/
theorem rollup_synthesis_order (G : Gadgets) (evalW : Bool) (p : RollupParams)
    (inputs : Option RollupInputsW) (t : List Event) (c : ℕ)
    (h : synthesize G evalW p inputs = .ok (t, c)) :
    t = [Event.allocGroup, Event.allocChallenge challengeConstant, Event.allocSet]
        ++ (List.range p.n_removes).map Event.hashRemove
        ++ (List.range p.n_inserts).map Event.hashInsert
        ++ [Event.removeOp SetExpr.init,
            Event.insertOp (SetExpr.removedFrom SetExpr.init),
            Event.allocExpectedDigest, Event.checkDigest] :=
  (synthesize_ok_inv G evalW p inputs t c h).1

/-- Witness for C7: the order of the concrete trace of a proving-mode run
on the shape pTest2. -/
theorem rollup_synthesis_order_witness :
    tTest2 = [Event.allocGroup, Event.allocChallenge challengeConstant, Event.allocSet]
        ++ (List.range pTest2.n_removes).map Event.hashRemove
        ++ (List.range pTest2.n_inserts).map Event.hashInsert
        ++ [Event.removeOp SetExpr.init,
            Event.insertOp (SetExpr.removedFrom SetExpr.init),
            Event.allocExpectedDigest, Event.checkDigest] :=
  rollup_synthesis_order zeroGadgets false pTest2 none tTest2 0 (by rfl)

/-- C9: when a constraint system that evaluates witness assignments
synthesizes the circuit and the witness is absent or misses an accessed
removed or inserted item or component, synthesis aborts with
SynthesisError::AssignmentMissing and produces no partial output. -/
theorem rollup_missing_witness_aborts (G : Gadgets) (p : RollupParams)
    (inputs : Option RollupInputsW) (h : witnessComplete p inputs = false) :
    synthesize G true p inputs = .error .assignmentMissing :=
  synthesize_incomplete G p inputs h

/-- Witness for C9: proving-mode synthesis over pTest with no inputs at
all aborts with AssignmentMissing. -/
theorem rollup_missing_witness_aborts_witness :
    synthesize zeroGadgets true pTest none = .error .assignmentMissing :=
  rollup_missing_witness_aborts zeroGadgets pTest none (by decide)

/-- C5 counterexample: the challenge is not derived from the instance:
two different instances (different shapes, one with a witness in proving
mode and one shape-only) both allocate the one fixed constant
274481455456098291870407972073878126369 as the challenge. -/
theorem challenge_not_instance_derived :
    pTest ≠ pTest2
    ∧ synthesize zeroGadgets true pTest (some insTest) = .ok (tTest, 0)
    ∧ tTest[1]? = some (Event.allocChallenge 274481455456098291870407972073878126369)
    ∧ synthesize zeroGadgets false pTest2 none = .ok (tTest2, 0)
    ∧ tTest2[1]? = some (Event.allocChallenge 274481455456098291870407972073878126369) := by
  refine ⟨by decide, by rfl, by decide, by rfl, by decide⟩

/-- C5 amended: in every synthesis the challenge is allocated with the one
fixed constant value 274481455456098291870407972073878126369 (the
CHALLENGE string constant of rollup.rs, which a TODO says should become
the prime-hash of the inputs), identically for every params and witness:
the value closure yields that constant and every successful trace records
it at position 1. -/
theorem challenge_fixed_for_all_instances (G : Gadgets) (evalW : Bool)
    (p : RollupParams) (inputs : Option RollupInputsW) (t : List Event) (c : ℕ)
    (h : synthesize G evalW p inputs = .ok (t, c)) :
    challengeValue p inputs = 274481455456098291870407972073878126369
    ∧ t[1]? = some (Event.allocChallenge 274481455456098291870407972073878126369) := by
  obtain ⟨ht, _⟩ := synthesize_ok_inv G evalW p inputs t c h
  subst ht
  exact ⟨rfl, by simp [shapeTrace, challengeConstant]⟩

/-- Witness for C5 amended, at the concrete proving-mode run on pTest. -/
theorem challenge_fixed_for_all_instances_witness :
    challengeValue pTest (some insTest) = 274481455456098291870407972073878126369
    ∧ tTest[1]? = some (Event.allocChallenge 274481455456098291870407972073878126369) :=
  challenge_fixed_for_all_instances zeroGadgets true pTest (some insTest) tTest 0 (by rfl)

/-- C2: the export pipeline passes proving mode an incomplete witness:
construct_circuit builds the inputs with one removed and one inserted item
tuple (n_swaps = 1) while the shape from generate_bench_params demands
n_removes = n_inserts = 5, so proving-mode synthesis of that circuit
aborts with AssignmentMissing for every gadget cost model. -/
theorem export_pipeline_witness_mismatch :
    construct_circuit_inputs.to_remove.length = 1
    ∧ construct_circuit_inputs.to_insert.length = 1
    ∧ generate_bench_params.n_removes = 5
    ∧ generate_bench_params.n_inserts = 5
    ∧ witnessComplete generate_bench_params (some construct_circuit_inputs) = false
    ∧ ∀ G : Gadgets,
        synthesize G true generate_bench_params (some construct_circuit_inputs)
          = .error .assignmentMissing := by
  have hw : witnessComplete generate_bench_params (some construct_circuit_inputs)
      = false := by rfl
  exact ⟨rfl, rfl, rfl, rfl, hw,
    fun G => synthesize_incomplete G generate_bench_params
      (some construct_circuit_inputs) hw⟩

/-- nat_to_limbs always produces exactly k limbs. -/
theorem nat_to_limbs_length (w k x : ℕ) : (nat_to_limbs w k x).length = k := by
  induction k generalizing x with
  | zero => simp [nat_to_limbs]
  | succ k ih => simp [nat_to_limbs, ih]

/-- Reassembling the k limbs of x recovers x modulo 2^(w*k). -/
theorem limbsToNat_nat_to_limbs (w k x : ℕ) :
    limbsToNat w (nat_to_limbs w k x) = x % 2 ^ (w * k) := by
  induction k generalizing x with
  | zero => simp [nat_to_limbs, limbsToNat, Nat.mod_one]
  | succ k ih =>
    simp only [nat_to_limbs, limbsToNat, ih]
    rw [show w * (k + 1) = w + w * k by ring, pow_add, Nat.mod_mul]

/-- C6 counterexample: the packed vector the pipeline constructs is not
the three-segment vector the spec describes (it also contains the limbs of
the initial digest), already at generator 2, modulus 3, initial digest 5,
final digest 7. -/
theorem packPublicInputs_not_spec_packing :
    packPublicInputs 2 3 5 7 ≠ packPublicInputsSpec 2 3 7 := by
  intro h
  have hl := congrArg List.length h
  simp only [packPublicInputs, packPublicInputsSpec, List.length_append,
    nat_to_limbs_length] at hl
  omega

/-- C6 amended: the public-input vector the pipeline packs consists of
exactly the 32-bit-limb sequences (64 limbs each, least-significant limb
first) of the group generator, the group modulus, the initial set digest
and the final set digest, in that order and nothing else: it has 256
limbs and its four 64-limb segments decode back to the four packed
values. -/
theorem packPublicInputs_limbs (g m d0 d1 : ℕ) (hg : g < 2 ^ 2048)
    (hm : m < 2 ^ 2048) (h0 : d0 < 2 ^ 2048) (h1 : d1 < 2 ^ 2048) :
    (packPublicInputs g m d0 d1).length = 256
    ∧ limbsToNat 32 ((packPublicInputs g m d0 d1).take 64) = g
    ∧ limbsToNat 32 (((packPublicInputs g m d0 d1).drop 64).take 64) = m
    ∧ limbsToNat 32 (((packPublicInputs g m d0 d1).drop 128).take 64) = d0
    ∧ limbsToNat 32 ((packPublicInputs g m d0 d1).drop 192) = d1 := by
  have hlen : ∀ x : ℕ, (nat_to_limbs 32 64 x).length = 64 :=
    fun x => nat_to_limbs_length 32 64 x
  have hdecode : ∀ x : ℕ, x < 2 ^ 2048 → limbsToNat 32 (nat_to_limbs 32 64 x) = x := by
    intro x hx
    rw [limbsToNat_nat_to_limbs, show (32 : ℕ) * 64 = 2048 by norm_num]
    exact Nat.mod_eq_of_lt hx
  have hassoc : packPublicInputs g m d0 d1
      = nat_to_limbs 32 64 g ++ (nat_to_limbs 32 64 m
          ++ (nat_to_limbs 32 64 d0 ++ nat_to_limbs 32 64 d1)) := by
    simp [packPublicInputs, List.append_assoc]
  have hd64 : (packPublicInputs g m d0 d1).drop 64
      = nat_to_limbs 32 64 m ++ (nat_to_limbs 32 64 d0 ++ nat_to_limbs 32 64 d1) := by
    rw [hassoc]
    exact List.drop_left' (hlen g)
  have hd128 : (packPublicInputs g m d0 d1).drop 128
      = nat_to_limbs 32 64 d0 ++ nat_to_limbs 32 64 d1 := by
    rw [show (128 : ℕ) = 64 + 64 by norm_num, ← List.drop_drop, hd64]
    exact List.drop_left' (hlen m)
  have hd192 : (packPublicInputs g m d0 d1).drop 192 = nat_to_limbs 32 64 d1 := by
    rw [show (192 : ℕ) = 128 + 64 by norm_num, ← List.drop_drop, hd128]
    exact List.drop_left' (hlen d0)
  refine ⟨?_, ?_, ?_, ?_, ?_⟩
  · simp [packPublicInputs, List.length_append, nat_to_limbs_length]
  · rw [hassoc, List.take_left' (hlen g)]
    exact hdecode g hg
  · rw [hd64, List.take_left' (hlen m)]
    exact hdecode m hm
  · rw [hd128, List.take_left' (hlen d0)]
    exact hdecode d0 h0
  · rw [hd192]
    exact hdecode d1 h1

/-- Witness for C6 amended at generator 2, modulus 3, digests 5 and 7. -/
theorem packPublicInputs_limbs_witness :
    (2 : ℕ) < 2 ^ 2048 ∧ (3 : ℕ) < 2 ^ 2048
    ∧ (5 : ℕ) < 2 ^ 2048 ∧ (7 : ℕ) < 2 ^ 2048
    ∧ ((packPublicInputs 2 3 5 7).length = 256
      ∧ limbsToNat 32 ((packPublicInputs 2 3 5 7).take 64) = 2
      ∧ limbsToNat 32 (((packPublicInputs 2 3 5 7).drop 64).take 64) = 3
      ∧ limbsToNat 32 (((packPublicInputs 2 3 5 7).drop 128).take 64) = 5
      ∧ limbsToNat 32 ((packPublicInputs 2 3 5 7).drop 192) = 7) := by
  refine ⟨by norm_num, by norm_num, by norm_num, by norm_num, ?_⟩
  exact packPublicInputs_limbs 2 3 5 7 (by norm_num) (by norm_num)
    (by norm_num) (by norm_num)

/-- fsGet looks through a newly created entry. -/
theorem fsGet_cons (q c : String) (fs : FS) (p : String) :
    fsGet ((q, c) :: fs) p = if q = p then some c else fsGet fs p := rfl

/-- C8: if a file already exists at the proving-key or verifying-key
destination, generate_keys reports failure and every pre-existing file
keeps its contents; and after a successful run, a second run at the same
paths fails with the first run's contents intact. -/
theorem generate_keys_refuses_overwrite (fs : FS)
    (pkPath vkPath pkJson vkJson pkJson2 vkJson2 : String) :
    ((fsGet fs pkPath ≠ none ∨ fsGet fs vkPath ≠ none) →
      (generate_keys fs pkPath vkPath pkJson vkJson).2 = false)
    ∧ (∀ p c, fsGet fs p = some c →
        fsGet (generate_keys fs pkPath vkPath pkJson vkJson).1 p = some c)
    ∧ ((generate_keys fs pkPath vkPath pkJson vkJson).2 = true →
        (generate_keys (generate_keys fs pkPath vkPath pkJson vkJson).1
            pkPath vkPath pkJson2 vkJson2).2 = false
        ∧ fsGet (generate_keys (generate_keys fs pkPath vkPath pkJson vkJson).1
            pkPath vkPath pkJson2 vkJson2).1 pkPath = some pkJson
        ∧ fsGet (generate_keys (generate_keys fs pkPath vkPath pkJson vkJson).1
            pkPath vkPath pkJson2 vkJson2).1 vkPath = some vkJson) := by
  rcases hpk : fsGet fs pkPath with _ | a
  · -- the proving-key path is free
    rcases hvk1 : fsGet ((pkPath, pkJson) :: fs) vkPath with _ | b
    · -- the verifying-key path is free as well: the run succeeds
      have hne : pkPath ≠ vkPath := by
        intro he
        rw [fsGet_cons] at hvk1
        simp [he] at hvk1
      have hvk : fsGet fs vkPath = none := by
        rw [fsGet_cons] at hvk1
        simpa [hne] using hvk1
      have h1 : generate_keys fs pkPath vkPath pkJson vkJson
          = ((vkPath, vkJson) :: (pkPath, pkJson) :: fs, true) := by
        simp [generate_keys, createNewWrite, hpk, hvk1]
      refine ⟨?_, ?_, ?_⟩
      · intro hex
        exfalso
        rcases hex with h | h
        · exact h rfl
        · exact h hvk
      · intro p c hc
        rw [h1]
        have hp1 : ¬ (vkPath = p) := by
          intro he
          rw [he] at hvk
          rw [hvk] at hc
          cases hc
        have hp2 : ¬ (pkPath = p) := by
          intro he
          rw [he] at hpk
          rw [hpk] at hc
          cases hc
        simp [fsGet_cons, hp1, hp2, hc]
      · intro _
        have hg2 : fsGet ((vkPath, vkJson) :: (pkPath, pkJson) :: fs) pkPath
            = some pkJson := by
          simp [fsGet_cons, Ne.symm hne]
        have h2 : generate_keys ((vkPath, vkJson) :: (pkPath, pkJson) :: fs)
            pkPath vkPath pkJson2 vkJson2
            = ((vkPath, vkJson) :: (pkPath, pkJson) :: fs, false) := by
          simp [generate_keys, createNewWrite, hg2]
        rw [h1]
        refine ⟨by simp [h2], by simp [h2, hg2], by simp [h2, fsGet_cons]⟩
    · -- the verifying-key path is occupied: the run fails after the pk write
      have h1 : generate_keys fs pkPath vkPath pkJson vkJson
          = ((pkPath, pkJson) :: fs, false) := by
        simp [generate_keys, createNewWrite, hpk, hvk1]
      refine ⟨fun _ => by simp [h1], ?_, fun hcon => by simp [h1] at hcon⟩
      intro p c hc
      rw [h1]
      have hp2 : ¬ (pkPath = p) := by
        intro he
        rw [he] at hpk
        rw [hpk] at hc
        cases hc
      simp [fsGet_cons, hp2, hc]
  · -- the proving-key path is occupied: nothing is written at all
    have h1 : generate_keys fs pkPath vkPath pkJson vkJson = (fs, false) := by
      simp [generate_keys, createNewWrite, hpk]
    refine ⟨fun _ => by simp [h1], ?_, fun hcon => by simp [h1] at hcon⟩
    intro p c hc
    rw [h1]
    exact hc

/-- Witness for C8: a filesystem holding the proving-key path already
makes the run fail and keeps the old contents. -/
theorem generate_keys_refuses_overwrite_witness :
    (generate_keys [("pk.json", "old")] "pk.json" "vk.json" "P" "V").2 = false
    ∧ fsGet (generate_keys [("pk.json", "old")] "pk.json" "vk.json" "P" "V").1
        "pk.json" = some "old" :=
  ⟨(generate_keys_refuses_overwrite [("pk.json", "old")] "pk.json" "vk.json"
      "P" "V" "P2" "V2").1 (Or.inl (by decide)),
   (generate_keys_refuses_overwrite [("pk.json", "old")] "pk.json" "vk.json"
      "P" "V" "P2" "V2").2.1 "pk.json" "old" (by decide)⟩

/-- C10 counterexample: the serialized third component of a G1 point at
infinity is "0", not "1"; a G2 point at infinity gets ["0", "0"]. -/
theorem p1_infinity_flag_inverted :
    (p1_to_vec { x := 0, y := 1, infinity := true })[2]? = some "0"
    ∧ ("0" : String) ≠ "1"
    ∧ (p2_to_vec { x := { c0 := 0, c1 := 0 }, y := { c0 := 1, c1 := 0 },
                   infinity := true })[2]? = some ["0", "0"] :=
  ⟨rfl, by decide, rfl⟩

/-- C10 amended: every serialized G1 point is [x, y, z] with x and y the
decimal renderings of the coordinates and z equal to "1" exactly when the
point is NOT at infinity and "0" when it is (z plays the role of a
projective z coordinate rather than an is_infinity flag); a G2 point's
third component is the pair [z, "0"] under the same convention. -/
theorem point_encoding_third_component (p : G1Affine) (q : G2Affine) :
    p1_to_vec p = [repr_to_big p.x, repr_to_big p.y,
        if p.infinity then "0" else "1"]
    ∧ ((p1_to_vec p)[2]? = some "1" ↔ p.infinity = false)
    ∧ ((p1_to_vec p)[2]? = some "0" ↔ p.infinity = true)
    ∧ ((p2_to_vec q)[2]? = some ["1", "0"] ↔ q.infinity = false)
    ∧ ((p2_to_vec q)[2]? = some ["0", "0"] ↔ q.infinity = true) := by
  cases hp : p.infinity <;> cases hq : q.infinity <;>
    simp [p1_to_vec, p2_to_vec, hp, hq]

end BellmanBignat
